import Mathlib

/-
Verification of the plot-energy core (main.py): the reading store with its
interpolating lookup, the daily usage series, the annual consumption
estimator, and the weather aligner.

Modelling conventions:
* Calendar dates are modelled as day ordinals in ℤ (one unit = one calendar
  day), so `timedelta(days=1)` is `+ 1` and `(b - a).days` is `b - a`.
* `ts` turns a date into the Unix timestamp of its midnight: 86400 seconds
  per day, a strictly increasing affine map of the ordinal.
* Python floats are modelled as exact rationals ℚ.
* Failures are explicit: `Err.assertionError` for a failed `assert`,
  `Err.indexError` for an out-of-bounds list index such as `readings[0]`
  on an empty list, `Err.stopIteration` for `next()` on an exhausted
  generator.  Fallible operations return `Except Err _`.
-/

namespace PlotEnergy

/-- The closed field selector, standing for `Literal["electricity", "gas"]`. -/
inductive Energy where
  | electricity
  | gas
deriving DecidableEq, Repr

/-- Failure kinds of the Python code: `AssertionError` from a failed
`assert`, `IndexError` from an out-of-range list subscript, and
`StopIteration` from `next()` finding nothing. -/
inductive Err where
  | assertionError
  | indexError
  | stopIteration
deriving DecidableEq, Repr

/-- `class Reading`: one cumulative meter snapshot (main.py lines 31-38). -/
structure Reading where
  «at» : ℤ
  electricity : ℚ
  gas : ℚ
deriving DecidableEq, Repr

/-- `Reading.get`: dynamic attribute lookup by field name. -/
def Reading.get (r : Reading) (e : Energy) : ℚ :=
  match e with
  | .electricity => r.electricity
  | .gas => r.gas

/-- `class Weather`: one monthly climate sample (main.py lines 41-44). -/
structure Weather where
  «at» : ℤ
  air_mean : ℚ
deriving DecidableEq, Repr

/-- `class Data`: the dataset owning both sequences (main.py lines 47-50). -/
structure Data where
  readings : List Reading
  weathers : List Weather

/-- `interpolate` (main.py lines 15-17): linear interpolation; `progress`
is `(current - first) / (second - first)`. -/
def interpolate (first second current data_first data_second : ℚ) : ℚ :=
  data_first + (data_second - data_first) * ((current - first) / (second - first))

/-- `ts` (main.py lines 20-21): the Unix timestamp of the date's midnight,
86400 seconds per day ordinal. -/
def ts (day : ℤ) : ℤ :=
  86400 * day

/-- `Data.reading` (main.py lines 52-67).  Asserts
`readings[0].at <= at <= readings[-1].at`; returns the first reading's value
exactly at its date; otherwise takes `second_reading` as the first element
with `at <= reading.at` (a `next()` call), `first_reading` as
`readings[index - 1]` (Python's `[-1]`, the last element, when index is 0),
and interpolates.  `readings[0]` on an empty list is an `IndexError`. -/
def Data.reading (D : Data) (d : ℤ) (e : Energy) : Except Err ℚ :=
  match D.readings.head?, D.readings.getLast? with
  | some r0, some rl =>
    if r0.«at» ≤ d ∧ d ≤ rl.«at» then
      if d = r0.«at» then
        .ok (r0.get e)
      else
        match D.readings.find? (fun r => decide (d ≤ r.«at»)) with
        | some second_reading =>
          let i := D.readings.indexOf second_reading
          let first_reading :=
            if i = 0 then rl else D.readings.getD (i - 1) second_reading
          .ok (interpolate (ts first_reading.«at») (ts second_reading.«at») (ts d)
                (first_reading.get e) (second_reading.get e))
        | none => .error .stopIteration
    else
      .error .assertionError
  | _, _ => .error .indexError

/-- `Data.usage` (main.py lines 69-71): asserts
`readings[0].at < at <= readings[-1].at`, then returns
`reading(at) - reading(at - 1 day)`. -/
def Data.usage (D : Data) (d : ℤ) (e : Energy) : Except Err ℚ :=
  match D.readings.head?, D.readings.getLast? with
  | some r0, some rl =>
    if r0.«at» < d ∧ d ≤ rl.«at» then
      match D.reading d e with
      | .ok a =>
        match D.reading (d - 1) e with
        | .ok b => .ok (a - b)
        | .error err => .error err
      | .error err => .error err
    else
      .error .assertionError
  | _, _ => .error .indexError

/-- `Data.electricity_reading` (main.py lines 73-74). -/
def Data.electricity_reading (D : Data) (d : ℤ) : Except Err ℚ :=
  D.reading d .electricity

/-- `Data.electricity_usage` (main.py lines 76-77). -/
def Data.electricity_usage (D : Data) (d : ℤ) : Except Err ℚ :=
  D.usage d .electricity

/-- `Data.gas_reading` (main.py lines 79-80). -/
def Data.gas_reading (D : Data) (d : ℤ) : Except Err ℚ :=
  D.reading d .gas

/-- `Data.gas_usage` (main.py lines 82-83). -/
def Data.gas_usage (D : Data) (d : ℤ) : Except Err ℚ :=
  D.usage d .gas

/-- The `while day <= last` loop of `Data.dates` (main.py lines 108-111):
all days from `day` to `last` inclusive, ascending. -/
def dateRange (day last : ℤ) : List ℤ :=
  if day ≤ last then day :: dateRange (day + 1) last
  else []
termination_by (last + 1 - day).toNat
decreasing_by simp_wf; omega

/-- `Data.dates` (main.py lines 105-111): every calendar day from the day
after the first reading through the last reading's day.  `readings[0]` on an
empty list is an `IndexError`. -/
def Data.dates (D : Data) : Except Err (List ℤ) :=
  match D.readings.head?, D.readings.getLast? with
  | some r0, some rl => .ok (dateRange (r0.«at» + 1) rl.«at»)
  | _, _ => .error .indexError

/-- `Data.usage_dates` (main.py lines 113-115): `self.dates[1:]`. -/
def Data.usage_dates (D : Data) : Except Err (List ℤ) :=
  match D.dates with
  | .ok ds => .ok (ds.drop 1)
  | .error err => .error err

/-- `Data.average_annual_electricity_consumption` (main.py lines 85-93):
`start = usage_dates[0]` (an `IndexError` when empty), `end = start + 365`,
result `reading(end) - reading(start)`, with `reading(start)` evaluated
first. -/
def Data.average_annual_electricity_consumption (D : Data) : Except Err ℚ :=
  match D.usage_dates with
  | .ok ds =>
    match ds.head? with
    | some start =>
      match D.electricity_reading start with
      | .ok a =>
        match D.electricity_reading (start + 365) with
        | .ok b => .ok (b - a)
        | .error err => .error err
      | .error err => .error err
    | none => .error .indexError
  | .error err => .error err

/-- `Data.average_annual_gas_consumption` (main.py lines 95-103): same as
the electricity estimator with the gas field. -/
def Data.average_annual_gas_consumption (D : Data) : Except Err ℚ :=
  match D.usage_dates with
  | .ok ds =>
    match ds.head? with
    | some start =>
      match D.gas_reading start with
      | .ok a =>
        match D.gas_reading (start + 365) with
        | .ok b => .ok (b - a)
        | .error err => .error err
      | .error err => .error err
    | none => .error .indexError
  | .error err => .error err

/-- `Data.electricity_usages` (main.py lines 117-121): per-day usage over
`usage_dates`; the first failing day's error propagates. -/
def Data.electricity_usages (D : Data) : Except Err (List ℚ) :=
  match D.usage_dates with
  | .ok ds => ds.mapM (fun d => D.electricity_usage d)
  | .error err => .error err

/-- `Data.gas_usages` (main.py lines 123-127). -/
def Data.gas_usages (D : Data) : Except Err (List ℚ) :=
  match D.usage_dates with
  | .ok ds => ds.mapM (fun d => D.gas_usage d)
  | .error err => .error err

/-- `Data.temperature_dates` (main.py lines 129-134): the dates of the
weather entries within the readings' date bounds, in input order.  The
bounds are read inside the loop, so an empty weather list yields `[]` even
with no readings, while a nonempty one needs `readings[0]`. -/
def Data.temperature_dates (D : Data) : Except Err (List ℤ) :=
  match D.weathers with
  | [] => .ok []
  | _ =>
    match D.readings.head?, D.readings.getLast? with
    | some r0, some rl =>
      .ok ((D.weathers.filter
              (fun w => decide (r0.«at» ≤ w.«at» ∧ w.«at» ≤ rl.«at»))).map Weather.at)
    | _, _ => .error .indexError

/-- `Data.air_means` (main.py lines 136-141): the `air_mean` values of the
same filtered weather entries. -/
def Data.air_means (D : Data) : Except Err (List ℚ) :=
  match D.weathers with
  | [] => .ok []
  | _ =>
    match D.readings.head?, D.readings.getLast? with
    | some r0, some rl =>
      .ok ((D.weathers.filter
              (fun w => decide (r0.«at» ≤ w.«at» ∧ w.«at» ≤ rl.«at»))).map Weather.air_mean)
    | _, _ => .error .indexError

/-- The body of the `try` block (main.py lines 170-172): both annual
estimates, electricity first; the first failure propagates. -/
def annualSummary (D : Data) : Except Err (ℚ × ℚ) :=
  match D.average_annual_electricity_consumption with
  | .ok a =>
    match D.average_annual_gas_consumption with
    | .ok b => .ok (a, b)
    | .error err => .error err
  | .error err => .error err

/-- The `try`/`except AssertionError` at main.py lines 170-174: an
`AssertionError` is caught and reported as insufficient data (`none`);
any other failure escapes unhandled. -/
def annualSummaryHandled (D : Data) : Except Err (Option (ℚ × ℚ)) :=
  match annualSummary D with
  | .ok p => .ok (some p)
  | .error .assertionError => .ok none
  | .error err => .error err

/-- The dataset invariant from the spec: at least one reading, sorted
strictly ascending by date (hence unique dates). -/
def Data.StoreInv (D : Data) : Prop :=
  D.readings ≠ [] ∧ D.readings.Pairwise (fun a b => a.«at» < b.«at»)

/-! ### Unfolding lemmas -/

/-- Unfold `Data.reading` once the head and last readings are known. -/
theorem reading_eq_of_head_last (D : Data) (r0 rl : Reading)
    (hh : D.readings.head? = some r0) (hl : D.readings.getLast? = some rl)
    (d : ℤ) (e : Energy) :
    D.reading d e =
      if r0.«at» ≤ d ∧ d ≤ rl.«at» then
        if d = r0.«at» then .ok (r0.get e)
        else
          match D.readings.find? (fun r => decide (d ≤ r.«at»)) with
          | some second_reading =>
            let i := D.readings.indexOf second_reading
            let first_reading :=
              if i = 0 then rl else D.readings.getD (i - 1) second_reading
            .ok (interpolate (ts first_reading.«at») (ts second_reading.«at») (ts d)
                  (first_reading.get e) (second_reading.get e))
          | none => .error .stopIteration
      else .error .assertionError := by
  unfold Data.reading
  rw [hh, hl]

/-- Unfold `Data.usage` once the head and last readings are known. -/
theorem usage_eq_of_head_last (D : Data) (r0 rl : Reading)
    (hh : D.readings.head? = some r0) (hl : D.readings.getLast? = some rl)
    (d : ℤ) (e : Energy) :
    D.usage d e =
      if r0.«at» < d ∧ d ≤ rl.«at» then
        match D.reading d e with
        | .ok a =>
          match D.reading (d - 1) e with
          | .ok b => .ok (a - b)
          | .error err => .error err
        | .error err => .error err
      else .error .assertionError := by
  unfold Data.usage
  rw [hh, hl]

/-- Unfold `Data.dates` once the head and last readings are known. -/
theorem dates_eq_of_head_last (D : Data) (r0 rl : Reading)
    (hh : D.readings.head? = some r0) (hl : D.readings.getLast? = some rl) :
    D.dates = .ok (dateRange (r0.«at» + 1) rl.«at») := by
  unfold Data.dates
  rw [hh, hl]

/-- Unfold `Data.usage_dates` once the head and last readings are known. -/
theorem usage_dates_eq_of_head_last (D : Data) (r0 rl : Reading)
    (hh : D.readings.head? = some r0) (hl : D.readings.getLast? = some rl) :
    D.usage_dates = .ok ((dateRange (r0.«at» + 1) rl.«at»).drop 1) := by
  unfold Data.usage_dates
  rw [dates_eq_of_head_last D r0 rl hh hl]

/-! ### The date-range loop -/

/-- The date loop produces exactly the translated initial segment of ℕ. -/
theorem dateRange_eq_range (day last : ℤ) :
    dateRange day last
      = (List.range (last + 1 - day).toNat).map (fun (k : ℕ) => day + (k : ℤ)) := by
  generalize hn : (last + 1 - day).toNat = n
  induction n generalizing day with
  | zero =>
    rw [dateRange, if_neg (by omega)]
    simp
  | succ n ih =>
    rw [dateRange, if_pos (by omega : day ≤ last)]
    rw [ih (day + 1) (by omega)]
    rw [List.range_succ_eq_map]
    simp only [List.map_cons, List.map_map, Nat.cast_zero, add_zero, List.cons.injEq, true_and]
    apply List.map_congr_left
    intro a _
    simp only [Function.comp_apply]
    push_cast
    ring

/-- Length of the date range. -/
theorem dateRange_length (day last : ℤ) :
    (dateRange day last).length = (last + 1 - day).toNat := by
  rw [dateRange_eq_range, List.length_map, List.length_range]

/-- Dropping the first element of the date range shifts its start by a day. -/
theorem dateRange_drop_one (day last : ℤ) :
    (dateRange day last).drop 1
      = (List.range (last - day).toNat).map (fun (k : ℕ) => (day + 1) + (k : ℤ)) := by
  by_cases h : day ≤ last
  · rw [dateRange, if_pos h, List.drop_one, List.tail_cons, dateRange_eq_range]
    have he : last + 1 - (day + 1) = last - day := by ring
    rw [he]
  · rw [dateRange, if_neg h]
    have he : (last - day).toNat = 0 := by omega
    rw [he]
    simp

/-! ### Sorted reading lists -/

/-- Dates are strictly monotone along a sorted reading list. -/
theorem sorted_at_lt {l : List Reading}
    (hs : l.Pairwise (fun a b => a.«at» < b.«at»)) {i j : ℕ}
    (hij : i < j) (hj : j < l.length) :
    (l.get ⟨i, by omega⟩).«at» < (l.get ⟨j, hj⟩).«at» :=
  List.pairwise_iff_get.1 hs ⟨i, by omega⟩ ⟨j, hj⟩ hij

/-- Dates are monotone along a sorted reading list. -/
theorem sorted_at_le {l : List Reading}
    (hs : l.Pairwise (fun a b => a.«at» < b.«at»)) {i j : ℕ}
    (hij : i ≤ j) (hj : j < l.length) :
    (l.get ⟨i, by omega⟩).«at» ≤ (l.get ⟨j, hj⟩).«at» := by
  rcases Nat.eq_or_lt_of_le hij with rfl | h
  · exact le_refl _
  · exact le_of_lt (sorted_at_lt hs h hj)

/-- A sorted reading list has no duplicate entries. -/
theorem sorted_nodup {l : List Reading}
    (hs : l.Pairwise (fun a b => a.«at» < b.«at»)) : l.Nodup :=
  hs.imp fun hab heq => absurd hab (by rw [heq]; exact lt_irrefl _)

/-- On a duplicate-free list, `indexOf` inverts `get`. -/
theorem indexOf_get_eq {l : List Reading} (hnd : l.Nodup)
    (i : ℕ) (hi : i < l.length) :
    l.indexOf (l.get ⟨i, hi⟩) = i := by
  have hmem : l.get ⟨i, hi⟩ ∈ l := l.get_mem _ _
  have hlt : l.indexOf (l.get ⟨i, hi⟩) < l.length := List.indexOf_lt_length.2 hmem
  have he : l.get ⟨l.indexOf (l.get ⟨i, hi⟩), hlt⟩ = l.get ⟨i, hi⟩ :=
    List.indexOf_get hlt
  have := (hnd.get_inj_iff).1 he
  simpa using congrArg Fin.val this

/-- On a sorted list, the `next()` search of `Data.reading` finds exactly the
second member of the bracketing pair. -/
theorem find_bracket (d : ℤ) :
    ∀ (l : List Reading), l.Pairwise (fun a b => a.«at» < b.«at») →
      ∀ (i : ℕ) (hi : i + 1 < l.length),
        (l.get ⟨i, by omega⟩).«at» < d → d ≤ (l.get ⟨i + 1, hi⟩).«at» →
        l.find? (fun r => decide (d ≤ r.«at»)) = some (l.get ⟨i + 1, hi⟩) := by
  intro l
  induction l with
  | nil =>
    intro _ i hi
    simp at hi
  | cons a t ih =>
    intro hp i hi h1 h2
    cases i with
    | zero =>
      have ha : ¬ (d ≤ a.«at») := not_le.2 h1
      rw [List.find?_cons_of_neg _ (by simpa using ha)]
      cases t with
      | nil => simp at hi
      | cons b t' =>
        have hb : d ≤ b.«at» := h2
        rw [List.find?_cons_of_pos _ (by simpa using hb)]
        rfl
    | succ j =>
      have hj1 : j + 1 < t.length := by simpa using hi
      have hmem : t.get ⟨j, by omega⟩ ∈ t := t.get_mem _ _
      have haj : a.«at» < (t.get ⟨j, by omega⟩).«at» :=
        (List.pairwise_cons.1 hp).1 _ hmem
      have ha : ¬ (d ≤ a.«at») := not_le.2 (lt_trans haj h1)
      rw [List.find?_cons_of_neg _ (by simpa using ha)]
      exact ih (List.pairwise_cons.1 hp).2 j hj1 h1 h2

/-- The head of a nonempty list, as a `get`. -/
theorem head?_eq_get {l : List Reading} (h : 0 < l.length) :
    l.head? = some (l.get ⟨0, h⟩) := by
  cases l with
  | nil => simp at h
  | cons a t => rfl

/-- The last element of a nonempty list, as a `get`. -/
theorem getLast?_eq_get {l : List Reading} (h : 0 < l.length) :
    l.getLast? = some (l.get ⟨l.length - 1, by omega⟩) := by
  rw [List.getLast?_eq_getElem?, List.getElem?_eq_getElem (by omega)]
  simp

/-! ### Characterization of the interpolating lookup -/

/-- On a sorted store, a query strictly inside the bracket
`(readings[i].at, readings[i+1].at]` interpolates between readings `i` and
`i + 1`. -/
theorem reading_eq_interpolate (D : Data)
    (hs : D.readings.Pairwise (fun a b => a.«at» < b.«at»))
    (i : ℕ) (hi : i + 1 < D.readings.length) (d : ℤ) (e : Energy)
    (h1 : (D.readings.get ⟨i, by omega⟩).«at» < d)
    (h2 : d ≤ (D.readings.get ⟨i + 1, hi⟩).«at») :
    D.reading d e =
      .ok (interpolate (ts (D.readings.get ⟨i, by omega⟩).«at»)
            (ts (D.readings.get ⟨i + 1, hi⟩).«at») (ts d)
            ((D.readings.get ⟨i, by omega⟩).get e)
            ((D.readings.get ⟨i + 1, hi⟩).get e)) := by
  have hlen : 0 < D.readings.length := by omega
  have hh := head?_eq_get hlen
  have hl := getLast?_eq_get hlen
  rw [reading_eq_of_head_last D _ _ hh hl]
  have h0le : (D.readings.get ⟨0, hlen⟩).«at» ≤ (D.readings.get ⟨i, by omega⟩).«at» :=
    sorted_at_le hs (Nat.zero_le i) (by omega)
  have hlast : (D.readings.get ⟨i + 1, hi⟩).«at»
      ≤ (D.readings.get ⟨D.readings.length - 1, by omega⟩).«at» :=
    sorted_at_le hs (by omega) (by omega)
  rw [if_pos ⟨le_of_lt (lt_of_le_of_lt h0le h1), le_trans h2 hlast⟩]
  rw [if_neg (by exact ne_of_gt (lt_of_le_of_lt h0le h1))]
  rw [find_bracket d D.readings hs i hi h1 h2]
  have hidx : D.readings.indexOf (D.readings.get ⟨i + 1, hi⟩) = i + 1 :=
    indexOf_get_eq (sorted_nodup hs) _ hi
  simp only [hidx, Nat.succ_ne_zero, if_false, Nat.add_sub_cancel]
  rw [List.getD_eq_getElem?_getD, List.getElem?_eq_getElem (by omega : i < D.readings.length)]
  simp [List.get_eq_getElem]

/-- Any in-range query on a nonempty store returns a value (no sortedness
needed): the `assert` passes, the `next()` search succeeds, and the result
is an `ok`. -/
theorem reading_ok_of_range (D : Data) (r0 rl : Reading)
    (hh : D.readings.head? = some r0) (hl : D.readings.getLast? = some rl)
    (d : ℤ) (e : Energy) (hd1 : r0.«at» ≤ d) (hd2 : d ≤ rl.«at») :
    ∃ v, D.reading d e = .ok v := by
  rw [reading_eq_of_head_last D r0 rl hh hl]
  rw [if_pos ⟨hd1, hd2⟩]
  by_cases hfst : d = r0.«at»
  · exact ⟨r0.get e, by rw [if_pos hfst]⟩
  · rw [if_neg hfst]
    have hne : D.readings ≠ [] := by
      intro hnil
      rw [hnil] at hh
      exact Option.noConfusion hh
    have hmem : rl ∈ D.readings := by
      have := List.getLast?_eq_getLast D.readings hne
      rw [hl] at this
      have : rl = D.readings.getLast hne := Option.some.injEq _ _ ▸ this.symm ▸ rfl
      rw [this]
      exact List.getLast_mem hne
    have hsome : (D.readings.find? (fun r => decide (d ≤ r.«at»))).isSome := by
      rw [List.find?_isSome]
      exact ⟨rl, hmem, by simpa using hd2⟩
    match hfind : D.readings.find? (fun r => decide (d ≤ r.«at»)) with
    | some second_reading =>
      rw [hfind]
      exact ⟨_, rfl⟩
    | none =>
      rw [hfind] at hsome
      simp at hsome

/-- An out-of-range query on a nonempty store fails the `assert`. -/
theorem reading_assert_of_not_range (D : Data) (r0 rl : Reading)
    (hh : D.readings.head? = some r0) (hl : D.readings.getLast? = some rl)
    (d : ℤ) (e : Energy) (hd : ¬ (r0.«at» ≤ d ∧ d ≤ rl.«at»)) :
    D.reading d e = .error .assertionError := by
  rw [reading_eq_of_head_last D r0 rl hh hl, if_neg hd]

/-! ### Interpolation arithmetic -/

/-- `ts` is strictly increasing. -/
theorem ts_lt_ts {a b : ℤ} (h : a < b) : ts a < ts b := by
  unfold ts
  omega

/-- Interpolating exactly at the right endpoint returns the right value. -/
theorem interpolate_right (t0 t1 v0 v1 : ℚ) (h : t0 ≠ t1) :
    interpolate t0 t1 t1 v0 v1 = v1 := by
  unfold interpolate
  rw [div_self (sub_ne_zero.2 (Ne.symm h))]
  ring

/-- Linear interpolation stays within the value bracket. -/
theorem interpolate_mem_bracket (t0 t1 t v0 v1 : ℚ) (ht : t0 < t1)
    (h1 : t0 ≤ t) (h2 : t ≤ t1) (hv : v0 ≤ v1) :
    v0 ≤ interpolate t0 t1 t v0 v1 ∧ interpolate t0 t1 t v0 v1 ≤ v1 := by
  unfold interpolate
  have hd : (0 : ℚ) < t1 - t0 := by linarith
  have hp0 : 0 ≤ (t - t0) / (t1 - t0) := div_nonneg (by linarith) (le_of_lt hd)
  have hp1 : (t - t0) / (t1 - t0) ≤ 1 := by
    rw [div_le_one hd]
    linarith
  constructor
  · nlinarith
  · nlinarith

/-! ### Sample datasets used as concrete witnesses -/

/-- A small sorted store: three readings, two weather samples in range and
two outside. -/
def sampleData : Data :=
  { readings := [⟨0, 10, 5⟩, ⟨5, 30, 7⟩, ⟨9, 50, 20⟩]
    weathers := [⟨-2, 1⟩, ⟨3, 9/2⟩, ⟨12, 8⟩] }

/-- Two readings two days apart. -/
def twoDayData : Data :=
  { readings := [⟨0, 0, 0⟩, ⟨2, 2, 2⟩], weathers := [] }

/-- A store spanning only 60 days. -/
def sixtyDayData : Data :=
  { readings := [⟨0, 0, 0⟩, ⟨60, 600, 60⟩], weathers := [] }

/-- A store spanning one day. -/
def oneDayData : Data :=
  { readings := [⟨0, 1, 1⟩, ⟨1, 2, 2⟩], weathers := [] }

/-- A store with readings on days 0, 3 and 370, constant after day 3. -/
def yearData : Data :=
  { readings := [⟨0, 0, 0⟩, ⟨3, 3, 3⟩, ⟨370, 3, 3⟩], weathers := [] }

/-- On a sorted store, querying at the `k`-th reading's date returns its
stored value exactly, whichever lookup path is taken. -/
theorem reading_at_stored (D : Data)
    (hs : D.readings.Pairwise (fun a b => a.«at» < b.«at»))
    (k : ℕ) (hk : k < D.readings.length) (e : Energy) :
    D.reading (D.readings.get ⟨k, hk⟩).«at» e
      = .ok ((D.readings.get ⟨k, hk⟩).get e) := by
  have hlen : 0 < D.readings.length := by omega
  cases k with
  | zero =>
    rw [reading_eq_of_head_last D _ _ (head?_eq_get hlen) (getLast?_eq_get hlen)]
    have hle : (D.readings.get ⟨0, hlen⟩).«at»
        ≤ (D.readings.get ⟨D.readings.length - 1, by omega⟩).«at» :=
      sorted_at_le hs (Nat.zero_le _) (by omega)
    rw [if_pos ⟨le_refl _, hle⟩, if_pos rfl]
  | succ j =>
    have hj : j + 1 < D.readings.length := hk
    have h1 : (D.readings.get ⟨j, by omega⟩).«at» < (D.readings.get ⟨j + 1, hj⟩).«at» :=
      sorted_at_lt hs (Nat.lt_succ_self j) hj
    rw [reading_eq_interpolate D hs j hj _ e h1 (le_refl _)]
    congr 1
    exact interpolate_right _ _ _ _ (by exact_mod_cast ne_of_lt (ts_lt_ts h1))

/-- On a sorted store, every query strictly above the first date and at most
the last date is bracketed by some consecutive pair. -/
theorem bracket_exists :
    ∀ (l : List Reading) (d : ℤ) (h0 : 0 < l.length),
      (l.get ⟨0, h0⟩).«at» < d → d ≤ (l.get ⟨l.length - 1, by omega⟩).«at» →
      ∃ (i : ℕ) (hi : i + 1 < l.length),
        (l.get ⟨i, by omega⟩).«at» < d ∧ d ≤ (l.get ⟨i + 1, hi⟩).«at» := by
  intro l
  induction l with
  | nil =>
    intro d h0
    simp at h0
  | cons a t ih =>
    intro d h0 hd1 hd2
    cases t with
    | nil =>
      simp at hd1 hd2
      omega
    | cons b t' =>
      by_cases hb : d ≤ b.«at»
      · exact ⟨0, by simp, hd1, hb⟩
      · obtain ⟨i, hi, h1, h2⟩ := ih d (by simp) (not_le.1 hb) hd2
        exact ⟨i + 1, by simpa using hi, h1, h2⟩

/-! ### C4: exact match at stored dates -/

/-- C4: on a store satisfying the invariants, querying `valueAt` at any
stored reading's date returns exactly that reading's stored field value for
both fields, including when the reading is not the first one and the answer
goes through the interpolation path. -/
theorem C4_exact_match (D : Data) (hinv : D.StoreInv)
    (r : Reading) (hr : r ∈ D.readings) (e : Energy) :
    D.reading r.«at» e = .ok (r.get e) := by
  obtain ⟨hne, hs⟩ := hinv
  obtain ⟨⟨k, hk⟩, hget⟩ := List.mem_iff_get.1 hr
  rw [← hget]
  exact reading_at_stored D hs k hk e

/-- Witness for C4 at the middle reading of the sample store. -/
theorem C4_exact_match_witness :
    sampleData.reading 5 .electricity = .ok 30 := by
  have hinv : sampleData.StoreInv := by
    constructor
    · simp [sampleData]
    · simp [sampleData, List.pairwise_cons]
  have hr : (⟨5, 30, 7⟩ : Reading) ∈ sampleData.readings := by
    simp [sampleData]
  simpa [Reading.get] using
    C4_exact_match sampleData hinv ⟨5, 30, 7⟩ hr .electricity

/-! ### C5: usage is a one-day difference of readings -/

/-- C5: on a store satisfying the invariants, for every field and every date
`d` with `first.at < d ≤ last.at`, `usage(d)` succeeds and equals
`valueAt(d) - valueAt(d - 1)`; at any date outside that half-open range the
usage query fails with the range-violation (assertion) condition. -/
theorem C5_usage_difference (D : Data) (hinv : D.StoreInv)
    (r0 rl : Reading) (hh : D.readings.head? = some r0)
    (hl : D.readings.getLast? = some rl) (d : ℤ) (e : Energy) :
    (r0.«at» < d ∧ d ≤ rl.«at» →
      ∃ a b, D.reading d e = .ok a ∧ D.reading (d - 1) e = .ok b ∧
        D.usage d e = .ok (a - b)) ∧
    (¬ (r0.«at» < d ∧ d ≤ rl.«at») → D.usage d e = .error .assertionError) := by
  constructor
  · rintro ⟨hd1, hd2⟩
    obtain ⟨a, ha⟩ := reading_ok_of_range D r0 rl hh hl d e (le_of_lt hd1) hd2
    obtain ⟨b, hb⟩ := reading_ok_of_range D r0 rl hh hl (d - 1) e (by omega) (by omega)
    refine ⟨a, b, ha, hb, ?_⟩
    rw [usage_eq_of_head_last D r0 rl hh hl, if_pos ⟨hd1, hd2⟩, ha, hb]
  · intro hd
    rw [usage_eq_of_head_last D r0 rl hh hl, if_neg hd]

/-- Witness for C5 on the sample store: day 7 is in range, day 0 is not. -/
theorem C5_usage_difference_witness :
    (∃ a b, sampleData.reading 7 .gas = .ok a ∧ sampleData.reading 6 .gas = .ok b ∧
      sampleData.usage 7 .gas = .ok (a - b)) ∧
    sampleData.usage 0 .gas = .error .assertionError := by
  have hinv : sampleData.StoreInv :=
    ⟨by simp [sampleData], by simp [sampleData, List.pairwise_cons]⟩
  have h7 := C5_usage_difference sampleData hinv ⟨0, 10, 5⟩ ⟨9, 50, 20⟩
    (by simp [sampleData]) (by simp [sampleData]) 7 .gas
  have h0 := C5_usage_difference sampleData hinv ⟨0, 10, 5⟩ ⟨9, 50, 20⟩
    (by simp [sampleData]) (by simp [sampleData]) 0 .gas
  refine ⟨?_, h0.2 (by norm_num)⟩
  simpa using h7.1 (by norm_num)

/-! ### C7: monotone bracketing of interpolated values -/

/-- C7: for a date strictly between two consecutive readings whose field
values satisfy `v0 ≤ v1`, `valueAt` succeeds and its interpolated result
lies in the closed interval `[v0, v1]`. -/
theorem C7_monotonic_bracketing (D : Data) (hinv : D.StoreInv)
    (i : ℕ) (hi : i + 1 < D.readings.length) (d : ℤ) (e : Energy)
    (h1 : (D.readings.get ⟨i, by omega⟩).«at» < d)
    (h2 : d < (D.readings.get ⟨i + 1, hi⟩).«at»)
    (hv : (D.readings.get ⟨i, by omega⟩).get e ≤ (D.readings.get ⟨i + 1, hi⟩).get e) :
    ∃ v, D.reading d e = .ok v ∧
      (D.readings.get ⟨i, by omega⟩).get e ≤ v ∧
      v ≤ (D.readings.get ⟨i + 1, hi⟩).get e := by
  obtain ⟨hne, hs⟩ := hinv
  rw [reading_eq_interpolate D hs i hi d e h1 (le_of_lt h2)]
  refine ⟨_, rfl, ?_⟩
  apply interpolate_mem_bracket
  · exact_mod_cast ts_lt_ts (lt_trans h1 h2)
  · exact_mod_cast le_of_lt (ts_lt_ts h1)
  · exact_mod_cast le_of_lt (ts_lt_ts h2)
  · exact hv

/-- Witness for C7 between the first two sample readings at day 3. -/
theorem C7_monotonic_bracketing_witness :
    ∃ v, sampleData.reading 3 .electricity = .ok v ∧ 10 ≤ v ∧ v ≤ 30 := by
  have hinv : sampleData.StoreInv :=
    ⟨by simp [sampleData], by simp [sampleData, List.pairwise_cons]⟩
  have h := C7_monotonic_bracketing sampleData hinv 0 (by simp [sampleData]) 3
    .electricity (by simp [sampleData]) (by simp [sampleData])
    (by norm_num [sampleData, Reading.get])
  simpa [sampleData, Reading.get] using h

/-! ### C8: boundary rejection -/

/-- C8: on a store satisfying the invariants, `valueAt(first.at - 1)` and
`valueAt(last.at + 1)` both fail with the range-violation (assertion)
condition for either field. -/
theorem C8_boundary_rejection (D : Data) (hinv : D.StoreInv) (e : Energy) :
    ∃ r0 rl, D.readings.head? = some r0 ∧ D.readings.getLast? = some rl ∧
      D.reading (r0.«at» - 1) e = .error .assertionError ∧
      D.reading (rl.«at» + 1) e = .error .assertionError := by
  obtain ⟨hne, hs⟩ := hinv
  have hlen : 0 < D.readings.length := List.length_pos.2 hne
  have hh := head?_eq_get hlen
  have hl := getLast?_eq_get (l := D.readings) hlen
  have h0last : (D.readings.get ⟨0, hlen⟩).«at»
      ≤ (D.readings.get ⟨D.readings.length - 1, by omega⟩).«at» :=
    sorted_at_le hs (Nat.zero_le _) (by omega)
  refine ⟨_, _, hh, hl, ?_, ?_⟩
  · exact reading_assert_of_not_range D _ _ hh hl _ e (by omega)
  · exact reading_assert_of_not_range D _ _ hh hl _ e (by omega)

/-- Witness for C8 on the sample store: days `-1` and `10` are rejected. -/
theorem C8_boundary_rejection_witness :
    sampleData.reading (-1) .electricity = .error .assertionError ∧
    sampleData.reading 10 .electricity = .error .assertionError := by
  have hinv : sampleData.StoreInv :=
    ⟨by simp [sampleData], by simp [sampleData, List.pairwise_cons]⟩
  obtain ⟨r0, rl, hh, hl, h1, h2⟩ := C8_boundary_rejection sampleData hinv .electricity
  have hr0 : r0 = (⟨0, 10, 5⟩ : Reading) := by simpa [sampleData] using hh.symm
  have hrl : rl = (⟨9, 50, 20⟩ : Reading) := by simpa [sampleData] using hl.symm
  subst hr0 hrl
  norm_num at h1 h2
  exact ⟨h1, h2⟩

/-! ### C9: the bracketing pair is never degenerate -/

/-- C9: on a store satisfying the invariants, every in-range query either
hits the first reading's fast path or is answered by a bracketing pair of
consecutive readings with strictly increasing dates, so the interpolation
divisor `ts t1 - ts t0` is nonzero and no division by zero occurs; moreover
a query at any stored date other than the first returns exactly that stored
value rather than a degenerate zero-length interpolation. -/
theorem C9_no_zero_division (D : Data) (hinv : D.StoreInv)
    (r0 rl : Reading) (hh : D.readings.head? = some r0)
    (hl : D.readings.getLast? = some rl)
    (d : ℤ) (e : Energy) (hd1 : r0.«at» ≤ d) (hd2 : d ≤ rl.«at») :
    ((d = r0.«at» ∧ D.reading d e = .ok (r0.get e)) ∨
      (∃ (i : ℕ) (hi : i + 1 < D.readings.length),
        (D.readings.get ⟨i, by omega⟩).«at» < (D.readings.get ⟨i + 1, hi⟩).«at» ∧
        ((ts (D.readings.get ⟨i + 1, hi⟩).«at» : ℚ)
          - (ts (D.readings.get ⟨i, by omega⟩).«at» : ℚ)) ≠ 0 ∧
        (D.readings.get ⟨i, by omega⟩).«at» < d ∧
        d ≤ (D.readings.get ⟨i + 1, hi⟩).«at» ∧
        D.reading d e = .ok (interpolate (ts (D.readings.get ⟨i, by omega⟩).«at»)
          (ts (D.readings.get ⟨i + 1, hi⟩).«at») (ts d)
          ((D.readings.get ⟨i, by omega⟩).get e)
          ((D.readings.get ⟨i + 1, hi⟩).get e)))) ∧
    (∀ (k : ℕ) (hk : k < D.readings.length), 0 < k →
      d = (D.readings.get ⟨k, hk⟩).«at» →
      D.reading d e = .ok ((D.readings.get ⟨k, hk⟩).get e)) := by
  obtain ⟨hne, hs⟩ := hinv
  have hlen : 0 < D.readings.length := List.length_pos.2 hne
  have hh' := head?_eq_get hlen
  have hl' := getLast?_eq_get (l := D.readings) hlen
  have hr0 : r0 = D.readings.get ⟨0, hlen⟩ := by
    rw [hh'] at hh
    exact (Option.some.inj hh).symm
  have hrl : rl = D.readings.get ⟨D.readings.length - 1, by omega⟩ := by
    rw [hl'] at hl
    exact (Option.some.inj hl).symm
  constructor
  · by_cases hfst : d = r0.«at»
    · left
      subst hr0
      refine ⟨hfst, ?_⟩
      rw [hfst]
      exact reading_at_stored D hs 0 hlen e
    · right
      have hd1' : (D.readings.get ⟨0, hlen⟩).«at» < d := by
        rw [hr0] at hd1 hfst
        omega
      have hd2' : d ≤ (D.readings.get ⟨D.readings.length - 1, by omega⟩).«at» := by
        rw [hrl] at hd2
        exact hd2
      obtain ⟨i, hi, h1, h2⟩ := bracket_exists D.readings d hlen hd1' hd2'
      have hlt : (D.readings.get ⟨i, by omega⟩).«at» < (D.readings.get ⟨i + 1, hi⟩).«at» :=
        sorted_at_lt hs (Nat.lt_succ_self i) hi
      refine ⟨i, hi, hlt, ?_, h1, h2, reading_eq_interpolate D hs i hi d e h1 h2⟩
      have := ts_lt_ts hlt
      intro hzero
      have : (ts (D.readings.get ⟨i + 1, hi⟩).«at» : ℚ)
          = (ts (D.readings.get ⟨i, by omega⟩).«at» : ℚ) := by linarith
      have : ts (D.readings.get ⟨i + 1, hi⟩).«at» = ts (D.readings.get ⟨i, by omega⟩).«at» := by
        exact_mod_cast this
      omega
  · intro k hk hkpos hdk
    rw [hdk]
    exact reading_at_stored D hs k hk e

/-- Witness for C9 on the sample store at the stored date 9 (the last
reading, reached through the interpolation path). -/
theorem C9_no_zero_division_witness :
    sampleData.reading 9 .gas = .ok 20 := by
  have hinv : sampleData.StoreInv :=
    ⟨by simp [sampleData], by simp [sampleData, List.pairwise_cons]⟩
  have h := C9_no_zero_division sampleData hinv ⟨0, 10, 5⟩ ⟨9, 50, 20⟩
    (by simp [sampleData]) (by simp [sampleData]) 9 .gas (by norm_num) (by norm_num)
  have h2 := h.2 2 (by simp [sampleData]) (by norm_num) (by simp [sampleData])
  simpa [sampleData, Reading.get] using h2

deriving instance DecidableEq for Except

/-- One step of the date loop when the current day is in range. -/
theorem dateRange_cons {day last : ℤ} (h : day ≤ last) :
    dateRange day last = day :: dateRange (day + 1) last := by
  conv_lhs => rw [dateRange]
  rw [if_pos h]

/-- The date loop stops once the current day passes the last one. -/
theorem dateRange_nil {day last : ℤ} (h : ¬ day ≤ last) :
    dateRange day last = [] := by
  conv_lhs => rw [dateRange]
  rw [if_neg h]

/-- Unfold the electricity estimator once the usage dates are known. -/
theorem average_elec_eq_of_usage_dates (D : Data) (ds : List ℤ)
    (hud : D.usage_dates = .ok ds) :
    D.average_annual_electricity_consumption =
      match ds.head? with
      | some start =>
        match D.electricity_reading start with
        | .ok a =>
          match D.electricity_reading (start + 365) with
          | .ok b => .ok (b - a)
          | .error err => .error err
        | .error err => .error err
      | none => .error .indexError := by
  unfold Data.average_annual_electricity_consumption
  rw [hud]

/-- Unfold the gas estimator once the usage dates are known. -/
theorem average_gas_eq_of_usage_dates (D : Data) (ds : List ℤ)
    (hud : D.usage_dates = .ok ds) :
    D.average_annual_gas_consumption =
      match ds.head? with
      | some start =>
        match D.gas_reading start with
        | .ok a =>
          match D.gas_reading (start + 365) with
          | .ok b => .ok (b - a)
          | .error err => .error err
        | .error err => .error err
      | none => .error .indexError := by
  unfold Data.average_annual_gas_consumption
  rw [hud]

/-! ### C6: weather alignment -/

/-- C6: the aligned temperature-date and air-mean sequences are parallel
(same length, index-aligned) and their zipped pairs are exactly the
`(at, air_mean)` pairs of the Weather entries whose date lies within
`[first.at, last.at]` inclusive, in input order, with no resampling. -/
theorem C6_weather_alignment (D : Data) (r0 rl : Reading)
    (hh : D.readings.head? = some r0) (hl : D.readings.getLast? = some rl) :
    ∃ tds ams, D.temperature_dates = .ok tds ∧ D.air_means = .ok ams ∧
      tds.length = ams.length ∧
      tds.zip ams = (D.weathers.filter
          (fun w => decide (r0.«at» ≤ w.«at» ∧ w.«at» ≤ rl.«at»))).map
        (fun w => (w.«at», w.air_mean)) := by
  unfold Data.temperature_dates Data.air_means
  cases hw : D.weathers with
  | nil =>
    refine ⟨[], [], rfl, rfl, rfl, by simp⟩
  | cons w ws =>
    rw [hh, hl]
    refine ⟨_, _, rfl, rfl, by simp, ?_⟩
    rw [List.zip_map']

/-- Witness for C6 on the sample store: exactly the weather sample on day 3
is aligned, with air mean `9/2`. -/
theorem C6_weather_alignment_witness :
    ∃ tds ams, sampleData.temperature_dates = .ok tds ∧
      sampleData.air_means = .ok ams ∧ tds.length = ams.length ∧
      tds.zip ams = [((3 : ℤ), (9 : ℚ)/2)] := by
  obtain ⟨tds, ams, h1, h2, hlen, hzip⟩ := C6_weather_alignment sampleData
    ⟨0, 10, 5⟩ ⟨9, 50, 20⟩ (by simp [sampleData]) (by simp [sampleData])
  refine ⟨tds, ams, h1, h2, hlen, ?_⟩
  rw [hzip]
  norm_num [sampleData]

/-- When the store spans at least two days past the first reading, the
usage-date list starts at `first.at + 2`. -/
theorem usage_dates_cons_of_span (D : Data) (r0 rl : Reading)
    (hh : D.readings.head? = some r0) (hl : D.readings.getLast? = some rl)
    (hmin : r0.«at» + 2 ≤ rl.«at») :
    D.usage_dates = .ok ((r0.«at» + 2) :: dateRange (r0.«at» + 2 + 1) rl.«at») := by
  rw [usage_dates_eq_of_head_last D r0 rl hh hl]
  rw [dateRange_cons (by omega : r0.«at» + 1 ≤ rl.«at»)]
  rw [dateRange_cons (by omega : r0.«at» + 1 + 1 ≤ rl.«at»)]
  have h1 : r0.«at» + 1 + 1 = r0.«at» + 2 := by ring
  rw [h1]
  rfl

/-! ### C1: density of the usage-date sequence -/

/-- C1 fails on the code: with readings on days 0 and 2 (strictly ascending,
two readings, `(last.at - first.at).days = 2`), the usage-date sequence is
`[2]` — a single entry starting two days after the first reading — not the
claimed two entries `[1, 2]` starting the day immediately after it. -/
theorem C1_counterexample :
    twoDayData.usage_dates = .ok [2] ∧
    (([(2 : ℤ)].length : ℤ) ≠ 2 - 0) ∧ ([(2 : ℤ)] ≠ [1, 2]) := by
  refine ⟨?_, by norm_num, by norm_num⟩
  rw [usage_dates_eq_of_head_last twoDayData ⟨0, 0, 0⟩ ⟨2, 2, 2⟩
    (by simp [twoDayData]) (by simp [twoDayData])]
  rw [dateRange_cons (by norm_num), dateRange_cons (by norm_num),
    dateRange_nil (by norm_num)]
  norm_num

/-- C1 amended: for a store with at least two strictly ascending readings,
the usage-date sequence contains exactly `(last.at - first.at).days - 1`
entries, one per calendar day, strictly ascending with no duplicates and no
gaps, starting two days after the first reading's date (the code drops
`dates[0] = first.at + 1`) and ending at the last reading's date. -/
theorem C1_amended_dense_coverage (D : Data) (hinv : D.StoreInv)
    (r0 rl : Reading) (hh : D.readings.head? = some r0)
    (hl : D.readings.getLast? = some rl) (hlen2 : 2 ≤ D.readings.length) :
    D.usage_dates = .ok ((List.range (rl.«at» - r0.«at» - 1).toNat).map
      (fun (k : ℕ) => r0.«at» + 2 + (k : ℤ))) := by
  rw [usage_dates_eq_of_head_last D r0 rl hh hl, dateRange_drop_one]
  have he : rl.«at» - (r0.«at» + 1) = rl.«at» - r0.«at» - 1 := by ring
  rw [he]
  congr 1
  apply List.map_congr_left
  intro a _
  ring

/-- Witness for amended C1 on the sample store (days 0 through 9): eight
usage dates, days 2 through 9. -/
theorem C1_amended_dense_coverage_witness :
    sampleData.usage_dates = .ok [2, 3, 4, 5, 6, 7, 8, 9] := by
  have hinv : sampleData.StoreInv :=
    ⟨by simp [sampleData], by simp [sampleData, List.pairwise_cons]⟩
  have h := C1_amended_dense_coverage sampleData hinv ⟨0, 10, 5⟩ ⟨9, 50, 20⟩
    (by simp [sampleData]) (by simp [sampleData]) (by simp [sampleData])
  rw [h]
  decide

/-! ### C2: the annual estimator's start date -/

/-- C2 fails on the code: for readings on days 0, 3 and 370 with values
0, 3, 3, the estimator returns `valueAt(367) - valueAt(2) = 1`, whereas the
claim's start `first.at + 1 = 1` would give
`valueAt(366) - valueAt(1) = 3 - 1 = 2 ≠ 1`. -/
theorem C2_counterexample :
    yearData.average_annual_electricity_consumption = .ok 1 ∧
    yearData.reading 1 .electricity = .ok 1 ∧
    yearData.reading (1 + 365) .electricity = .ok 3 ∧
    (3 : ℚ) - 1 ≠ 1 := by
  have hsY : yearData.readings.Pairwise (fun a b => a.«at» < b.«at») := by
    simp [yearData, List.pairwise_cons]
  have h2 : yearData.reading 2 .electricity = .ok 2 := by
    have h := reading_eq_interpolate yearData hsY 0 (by simp [yearData]) 2
      .electricity (by norm_num [yearData]) (by norm_num [yearData])
    rw [h]
    norm_num [yearData, interpolate, ts, Reading.get]
  have h367 : yearData.reading (2 + 365) .electricity = .ok 3 := by
    have h := reading_eq_interpolate yearData hsY 1 (by simp [yearData]) (2 + 365)
      .electricity (by norm_num [yearData]) (by norm_num [yearData])
    rw [h]
    norm_num [yearData, interpolate, ts, Reading.get]
  have h1 : yearData.reading 1 .electricity = .ok 1 := by
    have h := reading_eq_interpolate yearData hsY 0 (by simp [yearData]) 1
      .electricity (by norm_num [yearData]) (by norm_num [yearData])
    rw [h]
    norm_num [yearData, interpolate, ts, Reading.get]
  have h366 : yearData.reading (1 + 365) .electricity = .ok 3 := by
    have h := reading_eq_interpolate yearData hsY 1 (by simp [yearData]) (1 + 365)
      .electricity (by norm_num [yearData]) (by norm_num [yearData])
    rw [h]
    norm_num [yearData, interpolate, ts, Reading.get]
  have hud : yearData.usage_dates = .ok (2 :: dateRange 3 370) := by
    have h := usage_dates_cons_of_span yearData ⟨0, 0, 0⟩ ⟨370, 3, 3⟩
      (by simp [yearData]) (by simp [yearData]) (by norm_num)
    rw [h]
    norm_num
  have hest : yearData.average_annual_electricity_consumption = .ok 1 := by
    rw [average_elec_eq_of_usage_dates yearData _ hud]
    simp only [List.head?_cons]
    rw [show yearData.electricity_reading 2 = .ok 2 from h2,
      show yearData.electricity_reading (2 + 365) = .ok 3 from h367]
    norm_num
  exact ⟨hest, h1, h366, by norm_num⟩

/-- C2 amended: the annual consumption estimate for each field equals
`valueAt(start + 365, field) - valueAt(start, field)` where `start` is the
first date in the usage-date sequence, namely `first.at + 2` (two days
after the first reading, not one), provided the store spans at least 367
days past the first reading so both lookups are in range. -/
theorem C2_amended_annual_estimate (D : Data) (hinv : D.StoreInv)
    (r0 rl : Reading) (hh : D.readings.head? = some r0)
    (hl : D.readings.getLast? = some rl) (hspan : r0.«at» + 367 ≤ rl.«at») :
    ∃ ae be ag bg,
      D.reading (r0.«at» + 2) .electricity = .ok ae ∧
      D.reading (r0.«at» + 2 + 365) .electricity = .ok be ∧
      D.average_annual_electricity_consumption = .ok (be - ae) ∧
      D.reading (r0.«at» + 2) .gas = .ok ag ∧
      D.reading (r0.«at» + 2 + 365) .gas = .ok bg ∧
      D.average_annual_gas_consumption = .ok (bg - ag) := by
  have hud := usage_dates_cons_of_span D r0 rl hh hl (by omega)
  obtain ⟨ae, hae⟩ := reading_ok_of_range D r0 rl hh hl (r0.«at» + 2)
    .electricity (by omega) (by omega)
  obtain ⟨be, hbe⟩ := reading_ok_of_range D r0 rl hh hl (r0.«at» + 2 + 365)
    .electricity (by omega) (by omega)
  obtain ⟨ag, hag⟩ := reading_ok_of_range D r0 rl hh hl (r0.«at» + 2)
    .gas (by omega) (by omega)
  obtain ⟨bg, hbg⟩ := reading_ok_of_range D r0 rl hh hl (r0.«at» + 2 + 365)
    .gas (by omega) (by omega)
  refine ⟨ae, be, ag, bg, hae, hbe, ?_, hag, hbg, ?_⟩
  · rw [average_elec_eq_of_usage_dates D _ hud]
    simp only [List.head?_cons]
    rw [show D.electricity_reading (r0.«at» + 2) = .ok ae from hae,
      show D.electricity_reading (r0.«at» + 2 + 365) = .ok be from hbe]
  · rw [average_gas_eq_of_usage_dates D _ hud]
    simp only [List.head?_cons]
    rw [show D.gas_reading (r0.«at» + 2) = .ok ag from hag,
      show D.gas_reading (r0.«at» + 2 + 365) = .ok bg from hbg]

/-- Witness for amended C2 on the 0/3/370 store: both estimators succeed and
match the `valueAt` difference at start `first.at + 2`. -/
theorem C2_amended_annual_estimate_witness :
    ∃ ae be ag bg,
      yearData.reading 2 .electricity = .ok ae ∧
      yearData.reading (2 + 365) .electricity = .ok be ∧
      yearData.average_annual_electricity_consumption = .ok (be - ae) ∧
      yearData.reading 2 .gas = .ok ag ∧
      yearData.reading (2 + 365) .gas = .ok bg ∧
      yearData.average_annual_gas_consumption = .ok (bg - ag) := by
  have hinv : yearData.StoreInv :=
    ⟨by simp [yearData], by simp [yearData, List.pairwise_cons]⟩
  have h := C2_amended_annual_estimate yearData hinv ⟨0, 0, 0⟩ ⟨370, 3, 3⟩
    (by simp [yearData]) (by simp [yearData]) (by norm_num)
  simpa using h

/-! ### C3: the insufficient-data failure is not a distinct condition -/

/-- C3 fails on the code: on a store spanning only 60 days the annual
estimator fails with `AssertionError` — the very same condition a generic
out-of-range query such as `valueAt(first.at - 1)` produces — so the
insufficient-data failure is not distinguishable from a range violation. -/
theorem C3_counterexample :
    sixtyDayData.average_annual_electricity_consumption
      = .error .assertionError ∧
    sixtyDayData.reading (-1) .electricity = .error .assertionError := by
  have hh : sixtyDayData.readings.head? = some ⟨0, 0, 0⟩ := by
    simp [sixtyDayData]
  have hl : sixtyDayData.readings.getLast? = some ⟨60, 600, 60⟩ := by
    simp [sixtyDayData]
  have hud : sixtyDayData.usage_dates = .ok (2 :: dateRange 3 60) := by
    have h := usage_dates_cons_of_span sixtyDayData ⟨0, 0, 0⟩ ⟨60, 600, 60⟩
      hh hl (by norm_num)
    rw [h]
    norm_num
  have hs60 : sixtyDayData.readings.Pairwise (fun a b => a.«at» < b.«at») := by
    simp [sixtyDayData, List.pairwise_cons]
  have h2 : sixtyDayData.reading 2 .electricity = .ok 20 := by
    have h := reading_eq_interpolate sixtyDayData hs60 0 (by simp [sixtyDayData])
      2 .electricity (by norm_num [sixtyDayData]) (by norm_num [sixtyDayData])
    rw [h]
    norm_num [sixtyDayData, interpolate, ts, Reading.get]
  have h367 : sixtyDayData.reading (2 + 365) .electricity
      = .error .assertionError :=
    reading_assert_of_not_range sixtyDayData _ _ hh hl _ .electricity
      (by norm_num)
  constructor
  · rw [average_elec_eq_of_usage_dates sixtyDayData _ hud]
    simp only [List.head?_cons]
    rw [show sixtyDayData.electricity_reading 2 = .ok 20 from h2,
      show sixtyDayData.electricity_reading (2 + 365) = .error .assertionError
        from h367]
  · exact reading_assert_of_not_range sixtyDayData _ _ hh hl _ .electricity
      (by norm_num)

/-- C3 amended: when the annual estimate is requested on a store whose
readings span at least 2 but fewer than 367 days past the first reading,
both estimators fail with the same assertion-based range-violation
condition as a generic out-of-range lookup (not a distinct
insufficient-data condition); the top-level `except AssertionError` handler
catches it and reports insufficient data, so the program neither crashes
nor prints a wrong number. -/
theorem C3_amended_insufficient_data (D : Data) (hinv : D.StoreInv)
    (r0 rl : Reading) (hh : D.readings.head? = some r0)
    (hl : D.readings.getLast? = some rl)
    (hmin : r0.«at» + 2 ≤ rl.«at») (hshort : rl.«at» < r0.«at» + 367) :
    D.average_annual_electricity_consumption = .error .assertionError ∧
    D.average_annual_gas_consumption = .error .assertionError ∧
    annualSummaryHandled D = .ok none := by
  have hud := usage_dates_cons_of_span D r0 rl hh hl hmin
  obtain ⟨ae, hae⟩ := reading_ok_of_range D r0 rl hh hl (r0.«at» + 2)
    .electricity (by omega) (by omega)
  obtain ⟨ag, hag⟩ := reading_ok_of_range D r0 rl hh hl (r0.«at» + 2)
    .gas (by omega) (by omega)
  have hbe : D.reading (r0.«at» + 2 + 365) .electricity
      = .error .assertionError :=
    reading_assert_of_not_range D r0 rl hh hl _ .electricity (by omega)
  have hbg : D.reading (r0.«at» + 2 + 365) .gas = .error .assertionError :=
    reading_assert_of_not_range D r0 rl hh hl _ .gas (by omega)
  have he : D.average_annual_electricity_consumption = .error .assertionError := by
    rw [average_elec_eq_of_usage_dates D _ hud]
    simp only [List.head?_cons]
    rw [show D.electricity_reading (r0.«at» + 2) = .ok ae from hae,
      show D.electricity_reading (r0.«at» + 2 + 365) = .error .assertionError
        from hbe]
  have hg : D.average_annual_gas_consumption = .error .assertionError := by
    rw [average_gas_eq_of_usage_dates D _ hud]
    simp only [List.head?_cons]
    rw [show D.gas_reading (r0.«at» + 2) = .ok ag from hag,
      show D.gas_reading (r0.«at» + 2 + 365) = .error .assertionError from hbg]
  have hsum : annualSummary D = .error .assertionError := by
    unfold annualSummary
    rw [he]
  refine ⟨he, hg, ?_⟩
  unfold annualSummaryHandled
  rw [hsum]

/-- Witness for amended C3 on the 60-day store: the gas estimator fails with
the assertion condition and the handled summary reports insufficient data. -/
theorem C3_amended_insufficient_data_witness :
    sixtyDayData.average_annual_gas_consumption = .error .assertionError ∧
    annualSummaryHandled sixtyDayData = .ok none := by
  have hinv : sixtyDayData.StoreInv :=
    ⟨by simp [sixtyDayData], by simp [sixtyDayData, List.pairwise_cons]⟩
  have h := C3_amended_insufficient_data sixtyDayData hinv ⟨0, 0, 0⟩
    ⟨60, 600, 60⟩ (by simp [sixtyDayData]) (by simp [sixtyDayData])
    (by norm_num) (by norm_num)
  exact ⟨h.2.1, h.2.2⟩

/-! ### C10: the short-span IndexError -/

/-- C10: when the readings span at most one day (including a single-reading
store), the usage-date sequence is empty and both annual estimators fail
with an index error (`usage_dates[0]` on an empty list) — a failure kind
distinct from the assertion-based range violation, so the top-level
`except AssertionError` handler does not catch it and the unhandled error
escapes. -/
theorem C10_short_span_index_error (D : Data) (r0 rl : Reading)
    (hh : D.readings.head? = some r0) (hl : D.readings.getLast? = some rl)
    (hspan : rl.«at» ≤ r0.«at» + 1) :
    D.usage_dates = .ok [] ∧
    D.average_annual_electricity_consumption = .error .indexError ∧
    D.average_annual_gas_consumption = .error .indexError ∧
    annualSummaryHandled D = .error .indexError ∧
    Err.indexError ≠ Err.assertionError := by
  have hud : D.usage_dates = .ok [] := by
    rw [usage_dates_eq_of_head_last D r0 rl hh hl]
    have hle : (dateRange (r0.«at» + 1) rl.«at»).length ≤ 1 := by
      rw [dateRange_length]
      omega
    rw [List.drop_eq_nil_of_le hle]
  have he : D.average_annual_electricity_consumption = .error .indexError := by
    rw [average_elec_eq_of_usage_dates D _ hud]
    rfl
  have hg : D.average_annual_gas_consumption = .error .indexError := by
    rw [average_gas_eq_of_usage_dates D _ hud]
    rfl
  have hsum : annualSummary D = .error .indexError := by
    unfold annualSummary
    rw [he]
  refine ⟨hud, he, hg, ?_, by simp⟩
  unfold annualSummaryHandled
  rw [hsum]

/-- Witness for C10 on the one-day store. -/
theorem C10_short_span_index_error_witness :
    oneDayData.usage_dates = .ok [] ∧
    annualSummaryHandled oneDayData = .error .indexError := by
  have h := C10_short_span_index_error oneDayData ⟨0, 1, 1⟩ ⟨1, 2, 2⟩
    (by simp [oneDayData]) (by simp [oneDayData]) (by norm_num)
  exact ⟨h.1, h.2.2.2.1⟩

end PlotEnergy
